import Mathlib

/-!
Verification of the ragas test-set evolution engine against its design
specification.  The definitions below are a shallow embedding of
`src/ragas/testset/evolutions.py` and `src/ragas/testsetv3/graph.py`:
pure decision logic is translated to Lean functions, the asynchronous
calls to the generative text service and to the document store are
modelled as oracle inputs (a `DocStore` record of deterministic graph
lookups plus a per-iteration `Round` of sampled nodes and filter
verdicts), and Python exceptions become explicit result constructors.
-/

namespace Ragas

/-- A document chunk, as in `ragas.testset.docstore.Node`:
an owning document id and textual content. -/
structure Node where
  doc_id : String
  page_content : String
deriving Repr, DecidableEq

/-- Traversal direction for sequential adjacency
(`ragas.testset.docstore.Direction`). -/
inductive Direction where
  | PREV
  | NEXT
deriving Repr, DecidableEq

/-- Modelled from the spec: the Knowledge Graph Store interface
(`ragas.testset.docstore.DocumentStore` is not under `src/`; only its
call sites in `evolutions.py` are).  Per the spec, `adjacent(node,
direction)` returns the node directly connected in the requested
direction or none, and `similar(node)` returns the similar nodes'
page contents ranked by similarity score descending (the engine passes
`get_similar(root)[0]` directly as a prompt context, so the sequence
elements are content strings).  Random sampling
(`get_random_nodes(k=1)`) is non-deterministic and is therefore
supplied per call through `Round` below rather than through this
record. -/
structure DocStore where
  adjacent : Node → Direction → Option Node
  similar : Node → List String

/-- Node quality filter (`NodeFilter` in `evolutions.py`): only the
configured score threshold matters for the decision logic; the llm
handle is external. -/
structure NodeFilter where
  threshold : Rat := 7.5

/-- Decision logic of `NodeFilter.afilter`: the generative service's
response is parsed as JSON; `parsedScore` is the numeric `score` field
of that JSON (`none` when the field is missing or the output
unparsable, mirroring `score.get("score", 0)` over the
parse result).  The verdict stored back under the `"score"` key is
`score.get("score", 0) >= self.threshold`. -/
def NodeFilter.afilter (f : NodeFilter) (parsedScore : Option Rat) : Bool :=
  decide (parsedScore.getD 0 ≥ f.threshold)

namespace QuestionFilter

/-- Decision logic of `QuestionFilter.afilter`: the parsed JSON's
`verdict` field (`none` when missing or the output unparsable,
mirroring `json_results.get("verdict")`); the result is
`json_results.get("verdict") != "No"`. -/
def afilter (verdict : Option String) : Bool :=
  decide (verdict ≠ some "No")

end QuestionFilter

/-- Translation of `Evolution.merged_nodes`: a synthetic node whose content is
`" ".join(n.page_content for n in self.nodes)`. -/
def Evolution.merged_nodes (nodes : List Node) : Node :=
  { doc_id := "merged"
    page_content := String.intercalate " " (nodes.map Node.page_content) }

/-- The mutable per-request state of an `Evolution`: the context node
list `nodes`, the traversal anchor `_root_node` (here `root`), the
retry counter `_tries` (here `tries`) and the configured bound
`max_tries` (here `maxTries`). -/
structure EvoState where
  nodes : List Node
  root : Option Node
  tries : Nat
  maxTries : Nat
deriving Repr, DecidableEq

/-- The state at the start of one generation request: empty context,
no root node sampled yet, retry counter zero. -/
def initState (maxTries : Nat) : EvoState :=
  { nodes := [], root := none, tries := 0, maxTries := maxTries }

/-- Translation of `SimpleEvolution._get_more_adjacent_nodes`: try the `PREV`
adjacent node of `_root_node` and insert it at index 0; otherwise try
`NEXT` and append it; otherwise replace the node list with the freshly
sampled node `fresh` (the `get_random_nodes(k=1)` result for this
call) and make it the new root.  Returns `none` when the
`assert self._root_node is not None` fails. -/
def get_more_adjacent_nodes (d : DocStore) (s : EvoState)
    (fresh : Node) : Option EvoState :=
  match s.root with
  | none => none
  | some root =>
    match d.adjacent root Direction.PREV with
    | some p => some { s with nodes := p :: s.nodes }
    | none =>
      match d.adjacent root Direction.NEXT with
      | some n => some { s with nodes := s.nodes ++ [n] }
      | none => some { s with nodes := [fresh], root := some fresh }

/-- The oracle data consumed by one pass through
`SimpleEvolution.aevolve`: the `get_random_nodes(k=1)` result used at
entry when `_tries == 0` (`sample`), the node filter verdict
(`nodeCheckPassed`), the `get_random_nodes(k=1)` result used after a
node-check failure (`resample`), the generated seed question and the
question filter verdict, and the `get_random_nodes(k=1)` result used
inside `_get_more_adjacent_nodes` (`fresh`). -/
structure Round where
  sample : Node
  nodeCheckPassed : Bool
  resample : Node
  question : String
  questionOk : Bool
  fresh : Node
deriving Repr, DecidableEq

/-- Outcome of one pass through the body of
`SimpleEvolution.aevolve`: either a recursive call to
`aretry_evolve(..., update_count)` carrying the mutated state, or a
valid seed question returned with the state at that point. -/
inductive StepOut where
  | retry (s : EvoState) (update_count : Bool)
  | done (q : String) (s : EvoState)
deriving Repr, DecidableEq

/-- One pass through the body of `SimpleEvolution.aevolve`, up to but
not including the `aretry_evolve` bookkeeping: when `_tries == 0`,
sample a root node; run the node filter; on node-check failure replace
the node list with a fresh sample and retry with
`update_count=False`; otherwise generate a seed question and run the
question filter; on question-check failure expand the context via
`_get_more_adjacent_nodes` and retry with `update_count=True`;
otherwise return the question.  `none` models the assertion failure
propagated from `_get_more_adjacent_nodes`. -/
def SimpleEvolution.aevolveBody (d : DocStore) (s : EvoState)
    (r : Round) : Option StepOut :=
  let s1 :=
    if s.tries = 0 then
      { s with nodes := [r.sample], root := some r.sample }
    else s
  if r.nodeCheckPassed = false then
    some (StepOut.retry { s1 with nodes := [r.resample] } false)
  else if r.questionOk = false then
    (get_more_adjacent_nodes d s1 r.fresh).map
      (fun s2 => StepOut.retry s2 true)
  else
    some (StepOut.done r.question s1)

/-- The counter update performed at the top of
`Evolution.aretry_evolve`: increment `_tries` when `update_count` is
true, leave it unchanged otherwise. -/
def aretryUpdate (s : EvoState) (update_count : Bool) : EvoState :=
  if update_count then { s with tries := s.tries + 1 } else s

/-- Result of driving one generation request to termination. -/
inductive RunResult where
  | success (q : String) (s : EvoState)
  | exhausted (s : EvoState)
  | assertFailed
  | outOfRounds (s : EvoState)
deriving Repr, DecidableEq

/-- The `aevolve`/`aretry_evolve` recursion of `SimpleEvolution`,
driven by a list of oracle rounds: each round is one `aevolve` pass;
a retry outcome goes through the `aretry_evolve` counter update and
its `self._tries > self.max_tries` check (`exhausted` models the
`ValueError("Max tries reached")`), then recurses.  `outOfRounds`
means the oracle list ended before the run terminated. -/
def SimpleEvolution.run (d : DocStore) (s : EvoState) :
    List Round → RunResult
  | [] => RunResult.outOfRounds s
  | r :: rs =>
    match SimpleEvolution.aevolveBody d s r with
    | none => RunResult.assertFailed
    | some (StepOut.done q s1) => RunResult.success q s1
    | some (StepOut.retry s' upd) =>
      let s2 := aretryUpdate s' upd
      if s2.tries > s2.maxTries then RunResult.exhausted s2
      else SimpleEvolution.run d s2 rs

/-- The observable states of a run: the state at each entry of
`aretry_evolve`, after its counter update (the point where
`self._tries` is logged and compared against `max_tries`), and the
state at a successful return. -/
def SimpleEvolution.states (d : DocStore) (s : EvoState) :
    List Round → List EvoState
  | [] => []
  | r :: rs =>
    match SimpleEvolution.aevolveBody d s r with
    | none => []
    | some (StepOut.done _ s1) => [s1]
    | some (StepOut.retry s' upd) =>
      let s2 := aretryUpdate s' upd
      if s2.tries > s2.maxTries then [s2]
      else s2 :: SimpleEvolution.states d s2 rs

/-- The arguments handed to `multi_context_question_prompt.format` in
`MultiContextEvolution.aevolve`. -/
structure MultiContextPromptArgs where
  question : String
  context1 : String
  context2 : String
deriving Repr, DecidableEq

/-- The reconciliation-prompt construction of
`MultiContextEvolution.aevolve`: `similar_context =
docstore.get_similar(self._root_node)[0]`, then the prompt is
formatted with `context1 = self._root_node.page_content` and
`context2 = similar_context`.  `none` models the `IndexError` when
the similarity lookup returns an empty sequence. -/
def MultiContextEvolution.promptArgs (d : DocStore) (root : Node)
    (seedQuestion : String) : Option MultiContextPromptArgs :=
  match d.similar root with
  | [] => none
  | c :: _ =>
    some { question := seedQuestion
           context1 := root.page_content
           context2 := c }

/-- The amended merged-context description: contents in list order,
consecutive contents separated by a single space.  Stated from the
(amended) spec's words, for comparison with `Evolution.merged_nodes`. -/
def spaceSeparated : List String → String
  | [] => ""
  | [c] => c
  | c :: c2 :: rest => c ++ " " ++ spaceSeparated (c2 :: rest)

end Ragas

namespace RagasV3

/-- The `NodeType` enum of `testsetv3/graph.py`. -/
inductive NodeType where
  | DOC
  | CHUNK
deriving Repr, DecidableEq

/-- The `NodeLevel` enum of `testsetv3/graph.py`. -/
inductive NodeLevel where
  | LEVEL_0
  | LEVEL_1
  | LEVEL_2
deriving Repr, DecidableEq

/-- A graph node of `testsetv3/graph.py`: id, optional label, optional
level, optional property map (JSON object modelled as an association
list). -/
structure GNode where
  id : String
  label : Option NodeType
  level : Option NodeLevel
  properties : Option (List (String × String))
deriving Repr, DecidableEq

/-- Python truthiness of an optional list argument (`if ids:`):
false for `None` and for the empty list. -/
def truthyIds : Option (List String) → Bool
  | none => false
  | some l => !l.isEmpty

/-- Python truthiness of an optional string argument
(`if property_key and property_value:`): false for `None` and `""`. -/
def truthyStr : Option String → Bool
  | none => false
  | some s => !s.isEmpty

/-- Python truthiness of the node's `properties` attribute
(`node.properties and ...`): false for `None` and for the empty dict. -/
def truthyProps : Option (List (String × String)) → Bool
  | none => false
  | some props => !props.isEmpty

/-- Translation of `Query.resolve_filter_nodes` of `testsetv3/graph.py`,
branch by branch.  Note that the `ids`, `label` and `level` branches
each rebuild their result from the full `nodes` list (as the source
does), while the property branch filters the accumulated
`filtered_nodes`. -/
def Query.resolve_filter_nodes (nodes : List GNode)
    (ids : Option (List String)) (label : Option NodeType)
    (level : Option NodeLevel)
    (property_key : Option String) (property_value : Option String) :
    List GNode :=
  let filtered_nodes := nodes
  let filtered_nodes :=
    if truthyIds ids then
      nodes.filter (fun nd => (ids.getD []).contains nd.id)
    else filtered_nodes
  let filtered_nodes :=
    match label with
    | some lb => nodes.filter (fun nd => nd.label == some lb)
    | none => filtered_nodes
  let filtered_nodes :=
    match level with
    | some lv => nodes.filter (fun nd => nd.level == some lv)
    | none => filtered_nodes
  let filtered_nodes :=
    if truthyStr property_key && truthyStr property_value then
      filtered_nodes.filter (fun nd =>
        truthyProps nd.properties &&
          ((nd.properties.getD []).lookup (property_key.getD "")
            == some (property_value.getD "")))
    else filtered_nodes
  filtered_nodes

/-- The conjunctive semantics the specification describes for
`filter_nodes`: a node is returned exactly when it satisfies every
provided criterion simultaneously.  Stated from the spec's words, for
comparison with `Query.resolve_filter_nodes`. -/
def conjunctiveFilterNodes (nodes : List GNode)
    (ids : Option (List String)) (label : Option NodeType)
    (level : Option NodeLevel)
    (property_key : Option String) (property_value : Option String) :
    List GNode :=
  nodes.filter (fun nd =>
    (!truthyIds ids || (ids.getD []).contains nd.id) &&
    (match label with
     | some lb => nd.label == some lb
     | none => true) &&
    (match level with
     | some lv => nd.level == some lv
     | none => true) &&
    (!(truthyStr property_key && truthyStr property_value) ||
      (truthyProps nd.properties &&
        ((nd.properties.getD []).lookup (property_key.getD "")
          == some (property_value.getD "")))))

end RagasV3

namespace Ragas

/-! Concrete fixtures used by witnesses and counterexamples. -/

/-- A concrete document chunk. -/
def nodeA : Node := { doc_id := "doc1", page_content := "alpha" }

/-- A second concrete document chunk. -/
def nodeB : Node := { doc_id := "doc2", page_content := "beta" }

/-- A third concrete document chunk. -/
def nodeC : Node := { doc_id := "doc3", page_content := "gamma" }

/-- A document store with no adjacency and no similar contexts. -/
def noAdjStore : DocStore :=
  { adjacent := fun _ _ => none, similar := fun _ => [] }

/-- A document store in which every node has `nodeB` as its `PREV`
neighbour and no `NEXT` neighbour. -/
def prevStore : DocStore :=
  { adjacent := fun _ dir =>
      match dir with
      | Direction.PREV => some nodeB
      | Direction.NEXT => none
    similar := fun _ => ["similar content"] }

/-- An oracle round whose node check passes and whose question check
fails. -/
def qfRound : Round :=
  { sample := nodeA, nodeCheckPassed := true, resample := nodeB
    question := "why?", questionOk := false, fresh := nodeC }

/-- An oracle round whose node check fails. -/
def nfRound : Round :=
  { sample := nodeA, nodeCheckPassed := false, resample := nodeB
    question := "why?", questionOk := true, fresh := nodeC }

/-- A mid-run state with a positive retry counter. -/
def sPos : EvoState :=
  { nodes := [nodeA], root := some nodeA, tries := 1, maxTries := 5 }

/-- A fresh-run state with the root already sampled. -/
def sZero : EvoState :=
  { nodes := [nodeA], root := some nodeA, tries := 0, maxTries := 5 }

/-- The state produced by a node-check failure on `sZero` with
resample `nodeB`: node list replaced, root anchor kept. -/
def nfPostState : EvoState :=
  { nodes := [nodeB], root := some nodeA, tries := 0, maxTries := 5 }

/-! ### C4 / C5: the two filters -/

end Ragas

namespace RagasV3

/-- A concrete graph node with id "a" and label CHUNK. -/
def gnodeA : GNode :=
  { id := "a", label := some NodeType.CHUNK, level := none
    properties := none }

/-- A concrete graph node with id "b" and label CHUNK. -/
def gnodeB : GNode :=
  { id := "b", label := some NodeType.CHUNK, level := none
    properties := none }

/-- C9: combining the `ids` and `label` criteria is not conjunctive.
On a store holding nodes "a" and "b", both labelled CHUNK, the query
`ids=["a"], label=CHUNK` returns both nodes — the `label` branch
rebuilds its result from the full node list, discarding the `ids`
restriction — whereas the conjunctive semantics the specification
describes returns only node "a". -/
theorem resolve_filter_nodes_not_conjunctive :
    Query.resolve_filter_nodes [gnodeA, gnodeB] (some ["a"])
        (some NodeType.CHUNK) none none none = [gnodeA, gnodeB] ∧
    conjunctiveFilterNodes [gnodeA, gnodeB] (some ["a"])
        (some NodeType.CHUNK) none none none = [gnodeA] ∧
    (∃ nd ∈ Query.resolve_filter_nodes [gnodeA, gnodeB] (some ["a"])
        (some NodeType.CHUNK) none none none,
      (["a"] : List String).contains nd.id = false) := by
  refine ⟨by decide, by decide, ?_⟩
  exact ⟨gnodeB, by decide, by decide⟩

end RagasV3

namespace Ragas

/-- C4: for every Node Filter invocation, the response's numeric
`score` field defaults to 0 when missing or unparsable, the verdict's
passed flag equals `score >= threshold` — inclusive at the boundary —
and the threshold defaults to 7.5. -/
theorem nodeFilter_passed_iff_score_ge_threshold
    (f : NodeFilter) (x : Rat) :
    (NodeFilter.afilter f (some x) = true ↔ f.threshold ≤ x) ∧
    NodeFilter.afilter f (some f.threshold) = true ∧
    (NodeFilter.afilter f none = true ↔ f.threshold ≤ 0) ∧
    ({ } : NodeFilter).threshold = 7.5 := by
  refine ⟨?_, ?_, ?_, rfl⟩ <;>
    simp [NodeFilter.afilter, Option.getD, ge_iff_le, le_refl]

/-- C5: a Question Filter invocation yields `false` if and only if
the parsed verdict field literally equals `"No"`; any other value,
including a missing verdict from malformed output, yields `true`. -/
theorem questionFilter_false_iff_verdict_No (v : Option String) :
    (QuestionFilter.afilter v = false ↔ v = some "No") ∧
    QuestionFilter.afilter none = true := by
  constructor
  · simp [QuestionFilter.afilter]
  · simp [QuestionFilter.afilter]

/-! ### C6: reconciliation prompt ordering -/

/-- C6: whenever Multi-Context Evolution reaches reconciliation (the
similarity lookup for the anchor is non-empty), the reconciliation
prompt receives the anchor node's content as its first context and
the top similar content as its second, in that order. -/
theorem multiContext_prompt_context_order (d : DocStore) (root : Node)
    (q c : String) (rest : List String)
    (h : d.similar root = c :: rest) :
    MultiContextEvolution.promptArgs d root q =
      some { question := q, context1 := root.page_content
             context2 := c } := by
  simp [MultiContextEvolution.promptArgs, h]

/-- C6 witness: the prompt-ordering theorem instantiated on a
concrete store. -/
theorem multiContext_prompt_context_order_witness :
    MultiContextEvolution.promptArgs prevStore nodeA "why?" =
      some { question := "why?", context1 := "alpha"
             context2 := "similar content" } :=
  multiContext_prompt_context_order prevStore nodeA "why?"
    "similar content" [] rfl

/-! ### C7: merged context separator -/

/-- C7 counterexample: merging the contents "alpha" and "beta" yields
"alpha beta" — the contents are separated by a single space, not by a
blank line. -/
theorem merged_nodes_not_blank_line_separated :
    (Evolution.merged_nodes [nodeA, nodeB]).page_content =
      "alpha beta" ∧
    (Evolution.merged_nodes [nodeA, nodeB]).page_content ≠
      "alpha" ++ "\n\n" ++ "beta" := by
  constructor
  · rfl
  · decide

/-- Accumulator lemma for `String.intercalate.go` with a single-space
separator. -/
theorem intercalate_go_space (l : List String) :
    ∀ acc : String,
      String.intercalate.go acc " " l =
        acc ++ (l.foldr (fun c t => " " ++ c ++ t) "") := by
  induction l with
  | nil => intro acc; simp [String.intercalate.go]
  | cons c rest ih =>
    intro acc
    simp only [String.intercalate.go, List.foldr, ih]
    simp [String.append_assoc]

/-- Folding the space-prefixed tail after a head content equals the
spec-side space-separated concatenation. -/
theorem head_append_foldr_spaceSeparated (rest : List String) :
    ∀ c : String,
      c ++ (rest.foldr (fun x t => " " ++ x ++ t) "") =
        spaceSeparated (c :: rest) := by
  induction rest with
  | nil => intro c; simp [spaceSeparated]
  | cons d ds ih =>
    intro c
    simp only [List.foldr, spaceSeparated, ← ih d, String.append_assoc]

/-! ### C2: deterministic context expansion -/

/-- C2: context expansion after a question-check failure is
deterministic in the adjacency results: the `PREV` adjacent node of
the anchor is tried first and, when present, inserted at the front of
the node list (whatever `NEXT` would return); only when `PREV` is
absent is `NEXT` tried and, when present, appended at the end; when
both are absent the node list is reset to the single freshly sampled
node, which becomes the new root. -/
theorem context_expansion_prev_before_next (d : DocStore)
    (s : EvoState) (root fresh : Node) (h : s.root = some root) :
    (∀ p, d.adjacent root Direction.PREV = some p →
      get_more_adjacent_nodes d s fresh =
        some { s with nodes := p :: s.nodes }) ∧
    (∀ n, d.adjacent root Direction.PREV = none →
      d.adjacent root Direction.NEXT = some n →
      get_more_adjacent_nodes d s fresh =
        some { s with nodes := s.nodes ++ [n] }) ∧
    (d.adjacent root Direction.PREV = none →
      d.adjacent root Direction.NEXT = none →
      get_more_adjacent_nodes d s fresh =
        some { s with nodes := [fresh], root := some fresh }) := by
  refine ⟨?_, ?_, ?_⟩
  · intro p hp
    simp [get_more_adjacent_nodes, h, hp]
  · intro n hp hn
    simp [get_more_adjacent_nodes, h, hp, hn]
  · intro hp hn
    simp [get_more_adjacent_nodes, h, hp, hn]

/-- C2 witness: on a store where `PREV` adjacency is present, the
expansion prepends the `PREV` neighbour. -/
theorem context_expansion_prev_before_next_witness :
    sZero.root = some nodeA ∧
    get_more_adjacent_nodes prevStore sZero nodeC =
      some { sZero with nodes := nodeB :: sZero.nodes } :=
  ⟨rfl,
    (context_expansion_prev_before_next prevStore sZero nodeA nodeC
      rfl).1 nodeB rfl⟩

/-- C7 amended: the merged context text is the ordered concatenation
of the constituent nodes' content in list order, with consecutive
contents separated by a single space. -/
theorem merged_nodes_space_separated (nodes : List Node) :
    (Evolution.merged_nodes nodes).page_content =
      spaceSeparated (nodes.map Node.page_content) := by
  show String.intercalate " " (nodes.map Node.page_content) =
    spaceSeparated (nodes.map Node.page_content)
  cases h : nodes.map Node.page_content with
  | nil => rfl
  | cons c rest =>
    show String.intercalate.go c " " rest = spaceSeparated (c :: rest)
    rw [intercalate_go_space rest c, head_append_foldr_spaceSeparated]

/-! ### Helper lemmas about the evolution state machine -/

/-- The function `_get_more_adjacent_nodes` never touches the retry counter or the
bound, and always leaves a root node in place. -/
theorem gma_preserves (d : DocStore) (s : EvoState) (fresh : Node)
    (s' : EvoState) (h : get_more_adjacent_nodes d s fresh = some s') :
    s'.tries = s.tries ∧ s'.maxTries = s.maxTries ∧
      s'.root.isSome = true := by
  unfold get_more_adjacent_nodes at h
  split at h
  · exact absurd h (by simp)
  · split at h
    · injection h with h
      subst h
      simp_all
    · split at h
      · injection h with h
        subst h
        simp_all
      · injection h with h
        subst h
        simp_all

/-- The function `_get_more_adjacent_nodes` succeeds whenever the asserted root
node is present. -/
theorem gma_total (d : DocStore) (s : EvoState) (fresh : Node)
    (h : s.root.isSome = true) :
    ∃ s', get_more_adjacent_nodes d s fresh = some s' := by
  obtain ⟨root, hr⟩ := Option.isSome_iff_exists.mp h
  unfold get_more_adjacent_nodes
  simp only [hr]
  cases hp : d.adjacent root Direction.PREV with
  | some p => simp only [hp]; exact ⟨_, rfl⟩
  | none =>
    simp only [hp]
    cases hn : d.adjacent root Direction.NEXT with
    | some n => simp only [hn]; exact ⟨_, rfl⟩
    | none => simp only [hn]; exact ⟨_, rfl⟩

/-- The entry sampling of `aevolve` keeps the retry counter. -/
theorem entryIf_tries (s : EvoState) (n : Node) :
    (if s.tries = 0 then { s with nodes := [n], root := some n }
     else s).tries = s.tries := by
  split <;> rfl

/-- The entry sampling of `aevolve` keeps the retry bound. -/
theorem entryIf_maxTries (s : EvoState) (n : Node) :
    (if s.tries = 0 then { s with nodes := [n], root := some n }
     else s).maxTries = s.maxTries := by
  split <;> rfl

/-- After the entry sampling of `aevolve`, a root node is present
whenever the run is fresh or one was already present. -/
theorem entryIf_root (s : EvoState) (n : Node)
    (h : s.tries = 0 ∨ s.root.isSome = true) :
    (if s.tries = 0 then { s with nodes := [n], root := some n }
     else s).root.isSome = true := by
  split
  · rfl
  · next hne =>
    rcases h with h0 | hsome
    · exact absurd h0 hne
    · exact hsome

/-- The `aretry_evolve` counter update never decreases the counter,
increases it by at most one, and touches nothing else. -/
theorem aretryUpdate_fields (s : EvoState) (u : Bool) :
    s.tries ≤ (aretryUpdate s u).tries ∧
    (aretryUpdate s u).tries ≤ s.tries + 1 ∧
    (aretryUpdate s u).maxTries = s.maxTries ∧
    (aretryUpdate s u).root = s.root := by
  cases u <;> simp [aretryUpdate]

/-- A retry outcome of the `aevolve` body carries the caller's retry
counter and bound unchanged, and keeps a root node in place. -/
theorem aevolveBody_retry_fields (d : DocStore) (s : EvoState)
    (r : Round) (s' : EvoState) (upd : Bool)
    (h : SimpleEvolution.aevolveBody d s r =
      some (StepOut.retry s' upd)) :
    s'.tries = s.tries ∧ s'.maxTries = s.maxTries ∧
      ((s.tries = 0 ∨ s.root.isSome = true) →
        s'.root.isSome = true) := by
  simp only [SimpleEvolution.aevolveBody] at h
  split at h
  · injection h with h
    injection h with h1 h2
    subst h1
    exact ⟨entryIf_tries s r.sample, entryIf_maxTries s r.sample,
      fun hroot => entryIf_root s r.sample hroot⟩
  · split at h
    · cases hg : get_more_adjacent_nodes d
          (if s.tries = 0 then
            { s with nodes := [r.sample], root := some r.sample }
           else s) r.fresh with
      | none => rw [hg] at h; exact absurd h (by simp)
      | some s2 =>
        rw [hg] at h
        simp only [Option.map_some', Option.some.injEq,
          StepOut.retry.injEq] at h
        obtain ⟨h1, -⟩ := h
        subst h1
        obtain ⟨g1, g2, g3⟩ := gma_preserves _ _ _ _ hg
        rw [entryIf_tries] at g1
        rw [entryIf_maxTries] at g2
        exact ⟨g1, g2, fun _ => g3⟩
    · exact absurd h (by simp)

/-- A success outcome of the `aevolve` body carries the caller's
retry counter and bound unchanged. -/
theorem aevolveBody_done_fields (d : DocStore) (s : EvoState)
    (r : Round) (q : String) (s1 : EvoState)
    (h : SimpleEvolution.aevolveBody d s r =
      some (StepOut.done q s1)) :
    s1.tries = s.tries ∧ s1.maxTries = s.maxTries := by
  simp only [SimpleEvolution.aevolveBody] at h
  split at h
  · exact absurd h (by simp)
  · split at h
    · cases hg : get_more_adjacent_nodes d
          (if s.tries = 0 then
            { s with nodes := [r.sample], root := some r.sample }
           else s) r.fresh with
      | none => rw [hg] at h; exact absurd h (by simp)
      | some s2 => rw [hg] at h; exact absurd h (by simp)
    · injection h with h
      injection h with h1 h2
      subst h2
      exact ⟨entryIf_tries s r.sample, entryIf_maxTries s r.sample⟩

/-- On a question-check-failure round, the `aevolve` body retries
with `update_count=True`, carrying the state expanded by
`_get_more_adjacent_nodes`. -/
theorem aevolveBody_qfail (d : DocStore) (s : EvoState) (r : Round)
    (s2 : EvoState) (hqc1 : r.nodeCheckPassed = true)
    (hqc2 : r.questionOk = false)
    (hg : get_more_adjacent_nodes d
      (if s.tries = 0 then
        { s with nodes := [r.sample], root := some r.sample }
       else s) r.fresh = some s2) :
    SimpleEvolution.aevolveBody d s r =
      some (StepOut.retry s2 true) := by
  simp [SimpleEvolution.aevolveBody, hqc1, hqc2, hg]

/-! ### C3: node-check failures are free, question-check failures
cost one retry -/

/-- C3: whenever the `aevolve` body asks for a retry, a node-check
failure replaces the node list with the single freshly sampled node
and goes through `aretry_evolve` with `update_count=False`, leaving
the retry counter unchanged; a question-check failure goes through
`aretry_evolve` with `update_count=True`, incrementing the counter by
exactly one. -/
theorem node_check_free_question_check_counted (d : DocStore)
    (s : EvoState) (r : Round) (s' : EvoState) (upd : Bool)
    (h : SimpleEvolution.aevolveBody d s r =
      some (StepOut.retry s' upd)) :
    (r.nodeCheckPassed = false →
      upd = false ∧ (aretryUpdate s' upd).tries = s.tries ∧
      s'.nodes = [r.resample]) ∧
    (r.nodeCheckPassed = true →
      upd = true ∧ (aretryUpdate s' upd).tries = s.tries + 1) := by
  have hfields := aevolveBody_retry_fields d s r s' upd h
  simp only [SimpleEvolution.aevolveBody] at h
  split at h
  · next hnc =>
    injection h with h
    injection h with h1 h2
    subst h1
    subst h2
    constructor
    · intro _
      refine ⟨rfl, ?_, rfl⟩
      simp only [aretryUpdate, if_neg Bool.false_ne_true]
      exact entryIf_tries s r.sample
    · intro htrue
      rw [hnc] at htrue
      exact absurd htrue (by decide)
  · next hnc =>
    split at h
    · cases hg : get_more_adjacent_nodes d
          (if s.tries = 0 then
            { s with nodes := [r.sample], root := some r.sample }
           else s) r.fresh with
      | none => rw [hg] at h; exact absurd h (by simp)
      | some s2 =>
        rw [hg] at h
        simp only [Option.map_some', Option.some.injEq,
          StepOut.retry.injEq] at h
        obtain ⟨h1, h2⟩ := h
        subst h1
        subst h2
        constructor
        · intro hfalse
          exact absurd hfalse hnc
        · intro _
          refine ⟨rfl, ?_⟩
          simp [aretryUpdate, hfields.1]
    · exact absurd h (by simp)

/-- C3 witness: the node-check-failure half, evaluated on a concrete
fresh run: the retry goes through with `update_count=False`, the node
list becomes the fresh sample and the counter stays at zero. -/
theorem node_check_free_witness :
    SimpleEvolution.aevolveBody noAdjStore sZero nfRound =
      some (StepOut.retry nfPostState false) ∧
    (aretryUpdate nfPostState false).tries = sZero.tries ∧
    nfPostState.nodes = [nodeB] :=
  ⟨by decide,
    ((node_check_free_question_check_counted noAdjStore sZero nfRound
      nfPostState false (by decide)).1 rfl).2.1,
    ((node_check_free_question_check_counted noAdjStore sZero nfRound
      nfPostState false (by decide)).1 rfl).2.2⟩

/-! ### C10: node-check failure keeps the traversal anchor -/

/-- C10: a node-check failure while the retry counter is positive
replaces the context node list with the single freshly sampled node
but leaves the stored root anchor unchanged, so a later `PREV`
expansion queries adjacency of the previously sampled root node and
prepends its neighbour to the reset list. -/
theorem node_check_failure_keeps_root (d : DocStore) (s : EvoState)
    (r : Round) (hpos : 0 < s.tries)
    (hfail : r.nodeCheckPassed = false) :
    SimpleEvolution.aevolveBody d s r =
      some (StepOut.retry { s with nodes := [r.resample] } false) ∧
    ({ s with nodes := [r.resample] } : EvoState).root = s.root ∧
    (∀ root p fresh, s.root = some root →
      d.adjacent root Direction.PREV = some p →
      get_more_adjacent_nodes d { s with nodes := [r.resample] }
        fresh = some { s with nodes := [p, r.resample] }) := by
  have hne : ¬ s.tries = 0 := Nat.pos_iff_ne_zero.mp hpos
  refine ⟨?_, rfl, ?_⟩
  · simp [SimpleEvolution.aevolveBody, hfail, hne]
  · intro root p fresh hroot hp
    simp [get_more_adjacent_nodes, hroot, hp]

/-- C10 witness: the theorem evaluated on a concrete mid-run state
with counter 1, a store whose `PREV` adjacency of the old root is
`nodeB`, and a node-check-failure round. -/
theorem node_check_failure_keeps_root_witness :
    0 < sPos.tries ∧
    SimpleEvolution.aevolveBody prevStore sPos nfRound =
      some (StepOut.retry { sPos with nodes := [nodeB] } false) ∧
    ({ sPos with nodes := [nodeB] } : EvoState).root = sPos.root ∧
    get_more_adjacent_nodes prevStore { sPos with nodes := [nodeB] }
      nodeC = some { sPos with nodes := [nodeB, nodeB] } := by
  have h := node_check_failure_keeps_root prevStore sPos nfRound
    (by decide) rfl
  exact ⟨by decide, h.1, h.2.1, h.2.2 nodeA nodeB nodeC rfl rfl⟩

/-! ### C1: exhaustion after exactly max_tries + 1 question-check
failures -/

/-- On a run whose rounds all pass the node check and fail the
question check, the retry counter increases by exactly one per round:
if the rounds do not reach the bound the run just consumes them all,
and otherwise it raises with the counter at `maxTries + 1`. -/
theorem run_all_qfail (d : DocStore) :
    ∀ (rounds : List Round) (s : EvoState),
      (∀ r ∈ rounds,
        r.nodeCheckPassed = true ∧ r.questionOk = false) →
      (s.tries = 0 ∨ s.root.isSome = true) →
      s.tries ≤ s.maxTries →
      (s.tries + rounds.length ≤ s.maxTries →
        ∃ s', SimpleEvolution.run d s rounds =
            RunResult.outOfRounds s' ∧
          s'.tries = s.tries + rounds.length) ∧
      (s.maxTries < s.tries + rounds.length →
        ∃ s', SimpleEvolution.run d s rounds =
            RunResult.exhausted s' ∧
          s'.tries = s.maxTries + 1) := by
  intro rounds
  induction rounds with
  | nil =>
    intro s hall hroot hle
    constructor
    · intro _
      exact ⟨s, rfl, by simp⟩
    · intro hlt
      simp only [List.length_nil, Nat.add_zero] at hlt
      exact absurd hlt (by omega)
  | cons r rs ih =>
    intro s hall hroot hle
    obtain ⟨hnc, hqc⟩ := hall r (List.mem_cons_self r rs)
    have hallrs : ∀ x ∈ rs,
        x.nodeCheckPassed = true ∧ x.questionOk = false :=
      fun x hx => hall x (List.mem_cons_of_mem r hx)
    obtain ⟨s2, hg⟩ :=
      gma_total d _ r.fresh (entryIf_root s r.sample hroot)
    have hbody := aevolveBody_qfail d s r s2 hnc hqc hg
    obtain ⟨g1, g2, g3⟩ := gma_preserves _ _ _ _ hg
    rw [entryIf_tries] at g1
    rw [entryIf_maxTries] at g2
    have hs3t : (aretryUpdate s2 true).tries = s.tries + 1 := by
      simp [aretryUpdate, g1]
    have hs3m : (aretryUpdate s2 true).maxTries = s.maxTries := by
      simp [aretryUpdate, g2]
    have hs3root : (aretryUpdate s2 true).root.isSome = true := by
      rw [(aretryUpdate_fields s2 true).2.2.2]
      exact g3
    have hrun : SimpleEvolution.run d s (r :: rs) =
        (if (aretryUpdate s2 true).tries >
            (aretryUpdate s2 true).maxTries
         then RunResult.exhausted (aretryUpdate s2 true)
         else SimpleEvolution.run d (aretryUpdate s2 true) rs) := by
      simp [SimpleEvolution.run, hbody]
    by_cases hc : s.maxTries < s.tries + 1
    · have hcond : (aretryUpdate s2 true).tries >
          (aretryUpdate s2 true).maxTries := by omega
      rw [if_pos hcond] at hrun
      constructor
      · intro hcontra
        simp only [List.length_cons] at hcontra
        exact absurd hcontra (by omega)
      · intro _
        exact ⟨aretryUpdate s2 true, hrun, by omega⟩
    · have hcond : ¬ (aretryUpdate s2 true).tries >
          (aretryUpdate s2 true).maxTries := by omega
      rw [if_neg hcond] at hrun
      have hih := ih (aretryUpdate s2 true) hallrs (Or.inr hs3root)
        (by omega)
      constructor
      · intro hlen
        simp only [List.length_cons] at hlen
        obtain ⟨s', ha, hb⟩ := hih.1 (by omega)
        refine ⟨s', by rw [hrun]; exact ha, ?_⟩
        simp only [List.length_cons]
        omega
      · intro hlen
        simp only [List.length_cons] at hlen
        obtain ⟨s', ha, hb⟩ := hih.2 (by omega)
        exact ⟨s', by rw [hrun]; exact ha, by omega⟩

/-- C1: for every Evolution run in which every question check fails
(and every node check passes, so that each attempt reaches the
question check), the run terminates by raising the bounded-retries
error, and the retry counter observed at that termination equals
exactly `max_tries + 1` question-check failures: with exactly
`max_tries + 1` failing rounds the run raises with counter
`max_tries + 1`, and with at most `max_tries` failing rounds it never
raises. -/
theorem retries_exhausted_exactly_max_tries_plus_one (d : DocStore)
    (m : Nat) (rounds : List Round)
    (hall : ∀ r ∈ rounds,
      r.nodeCheckPassed = true ∧ r.questionOk = false) :
    (rounds.length = m + 1 →
      ∃ s', SimpleEvolution.run d (initState m) rounds =
          RunResult.exhausted s' ∧ s'.tries = m + 1) ∧
    (rounds.length ≤ m →
      ∃ s', SimpleEvolution.run d (initState m) rounds =
          RunResult.outOfRounds s' ∧ s'.tries = rounds.length) := by
  have h := run_all_qfail d rounds (initState m) hall (Or.inl rfl)
    (by simp [initState])
  constructor
  · intro hlen
    obtain ⟨s', h1, h2⟩ := h.2 (by simp [initState, hlen])
    exact ⟨s', h1, by simpa [initState] using h2⟩
  · intro hlen
    obtain ⟨s', h1, h2⟩ := h.1 (by simp [initState]; omega)
    exact ⟨s', h1, by simpa [initState] using h2⟩

/-- C1 witness: with `max_tries = 1` and both rounds failing the
question check, the run raises with the counter at `2 = max_tries +
1`. -/
theorem retries_exhausted_witness :
    (∀ r ∈ [qfRound, qfRound],
      r.nodeCheckPassed = true ∧ r.questionOk = false) ∧
    ∃ s', SimpleEvolution.run noAdjStore (initState 1)
        [qfRound, qfRound] = RunResult.exhausted s' ∧
      s'.tries = 2 :=
  ⟨by decide,
    (retries_exhausted_exactly_max_tries_plus_one noAdjStore 1
      [qfRound, qfRound] (by decide)).1 rfl⟩

/-! ### C8: monotone but not strictly below the bound -/

/-- Along any run, the retry counter at the observable points never
decreases. -/
theorem states_tries_chain (d : DocStore) :
    ∀ (rounds : List Round) (s : EvoState),
      List.Chain' (· ≤ ·)
        (s.tries ::
          (SimpleEvolution.states d s rounds).map EvoState.tries) := by
  intro rounds
  induction rounds with
  | nil => intro s; simp [SimpleEvolution.states]
  | cons r rs ih =>
    intro s
    cases hbody : SimpleEvolution.aevolveBody d s r with
    | none => simp [SimpleEvolution.states, hbody]
    | some out =>
      cases out with
      | done q s1 =>
        have hd := aevolveBody_done_fields d s r q s1 hbody
        simp [SimpleEvolution.states, hbody, List.chain'_cons,
          hd.1]
      | retry s2 upd =>
        have hf := aevolveBody_retry_fields d s r s2 upd hbody
        have ha := aretryUpdate_fields s2 upd
        have hle : s.tries ≤ (aretryUpdate s2 upd).tries := by
          have h1 := ha.1
          have h2 := hf.1
          omega
        simp only [SimpleEvolution.states, hbody]
        by_cases hx : (aretryUpdate s2 upd).tries >
            (aretryUpdate s2 upd).maxTries
        · rw [if_pos hx]
          simp [List.chain'_cons, hle]
        · rw [if_neg hx]
          simp only [List.map_cons, List.chain'_cons]
          exact ⟨hle, ih (aretryUpdate s2 upd)⟩

/-- Along any run whose starting counter respects the bound, every
observable counter value is at most `maxTries + 1`. -/
theorem states_tries_bounded (d : DocStore) :
    ∀ (rounds : List Round) (s : EvoState),
      s.tries ≤ s.maxTries →
      ∀ s' ∈ SimpleEvolution.states d s rounds,
        s'.tries ≤ s.maxTries + 1 := by
  intro rounds
  induction rounds with
  | nil =>
    intro s hle s' hmem
    simp [SimpleEvolution.states] at hmem
  | cons r rs ih =>
    intro s hle s' hmem
    cases hbody : SimpleEvolution.aevolveBody d s r with
    | none => simp [SimpleEvolution.states, hbody] at hmem
    | some out =>
      cases out with
      | done q s1 =>
        have hd := aevolveBody_done_fields d s r q s1 hbody
        simp [SimpleEvolution.states, hbody] at hmem
        rw [hmem]
        have h1 := hd.1
        omega
      | retry s2 upd =>
        have hf := aevolveBody_retry_fields d s r s2 upd hbody
        have ha := aretryUpdate_fields s2 upd
        simp only [SimpleEvolution.states, hbody] at hmem
        by_cases hx : (aretryUpdate s2 upd).tries >
            (aretryUpdate s2 upd).maxTries
        · rw [if_pos hx] at hmem
          simp at hmem
          rw [hmem]
          have h1 := ha.2.1
          have h2 := hf.1
          omega
        · rw [if_neg hx] at hmem
          simp only [List.mem_cons] at hmem
          rcases hmem with hmem | hmem
          · rw [hmem]
            have h1 := ha.2.1
            have h2 := hf.1
            omega
          · have hle3 : (aretryUpdate s2 upd).tries ≤
                (aretryUpdate s2 upd).maxTries := by omega
            have hrec := ih (aretryUpdate s2 upd) hle3 s' hmem
            have h1 := ha.2.2.1
            have h2 := hf.2.1
            omega

/-- C8 counterexample: with `max_tries = 1` and two question-check
failures, the trace of observable counter values is `[1, 2]`; at the
first observable point the counter already equals the configured
maximum, so it is not strictly below it (and at exhaustion it exceeds
it). -/
theorem retry_counter_not_strictly_below_max :
    (SimpleEvolution.states noAdjStore (initState 1)
        [qfRound, qfRound]).map EvoState.tries = [1, 2] ∧
    ∃ s' ∈ SimpleEvolution.states noAdjStore (initState 1)
        [qfRound, qfRound],
      ¬ s'.tries < s'.maxTries := by
  constructor
  · decide
  · decide

/-- C8 amended: within one generation request the retry counter is
monotonically non-decreasing, and it is bounded by `max_tries + 1` at
every observable point (reaching `max_tries + 1` exactly when the
bounded-retries error is raised) — not strictly below `max_tries`. -/
theorem retry_counter_monotone_and_bounded (d : DocStore) (m : Nat)
    (rounds : List Round) :
    List.Chain' (· ≤ ·)
      ((initState m).tries ::
        (SimpleEvolution.states d (initState m) rounds).map
          EvoState.tries) ∧
    ∀ s' ∈ SimpleEvolution.states d (initState m) rounds,
      s'.tries ≤ m + 1 := by
  constructor
  · exact states_tries_chain d rounds (initState m)
  · intro s' hmem
    have h := states_tries_bounded d rounds (initState m)
      (by simp [initState]) s' hmem
    simpa [initState] using h

/-- C8 amended witness: the monotone-and-bounded theorem evaluated on
a concrete run with `max_tries = 1` and two question-check
failures. -/
theorem retry_counter_monotone_and_bounded_witness :
    List.Chain' (· ≤ ·)
      ((initState 1).tries ::
        (SimpleEvolution.states noAdjStore (initState 1)
          [qfRound, qfRound]).map EvoState.tries) ∧
    ∀ s' ∈ SimpleEvolution.states noAdjStore (initState 1)
        [qfRound, qfRound],
      s'.tries ≤ 2 :=
  retry_counter_monotone_and_bounded noAdjStore 1 [qfRound, qfRound]

end Ragas
